import Mathlib

/-
Shallow embedding of the reading-session tracker of better-pdf-reader
(the useReadingStats hook in src/components/reader-view.tsx and the
pagesPerHour derivation in src/components/reading-tracker.tsx).

Times are epoch milliseconds, modelled as Int (JavaScript numbers carry
integer millisecond values exactly in this range).  Page numbers are Int
as well, since the code performs no domain restriction on them.  The
nullable ref pauseStartRef.current is Option Int; JavaScript truthiness
tests on it (which are false for both null and 0) are modelled by
jsTruthy.
-/

namespace ReadingStats

/-- A committed per-page dwell record (interface PageTime). -/
structure PageTime where
  page : Int
  duration : Int
deriving DecidableEq

/-- The mutable state of the useReadingStats hook: isOpen, startTime,
history, isPaused, pauseStartRef.current, and lastPageParams.current
(split into its page and time fields). -/
structure StatsState where
  isOpen : Bool
  startTime : Int
  history : List PageTime
  isPaused : Bool
  pauseStart : Option Int
  trackerPage : Int
  trackerTime : Int
deriving DecidableEq

/-- JavaScript truthiness of the nullable number pauseStartRef.current:
null and 0 are falsy, every other number is truthy. -/
def jsTruthy : Option Int → Bool
  | none => false
  | some v => v != 0

/-- The setHistory updater run on a committed dwell: findIndex on the
page, add the duration in place when found, append a new record
otherwise (reader-view.tsx lines 403-416). -/
def commit (lastPage duration : Int) (prev : List PageTime) : List PageTime :=
  match prev.findIdx? (fun p => p.page == lastPage) with
  | some existingIndex =>
    match prev[existingIndex]? with
    | some item => prev.set existingIndex { item with duration := item.duration + duration }
    | none => prev
  | none => prev ++ [{ page := lastPage, duration := duration }]

/-- The page-change effect (reader-view.tsx lines 380-422): while paused
only the tracked page index is updated; while running, a change of page
measures the dwell since the reference time of the tracker, commits it when
strictly above 2000 ms, and unconditionally resets the tracker to the
new page at the current time. -/
def pageChange (newPage now : Int) (s : StatsState) : StatsState :=
  if s.isPaused then
    { s with trackerPage := newPage }
  else
    let lastPage := s.trackerPage
    let lastTime := s.trackerTime
    let duration := now - lastTime
    if lastPage ≠ newPage then
      let hist := if duration > 2000 then commit lastPage duration s.history else s.history
      { s with history := hist, trackerPage := newPage, trackerTime := now }
    else
      s

/-- togglePause (reader-view.tsx lines 343-366).  The call always makes
the panel visible.  When paused it resumes: if pauseStartRef.current is
truthy, both startTime and the tracker reference time are shifted by the
pause duration; the ref is cleared and isPaused set false.  When running
it pauses only if the panel was already open before the call. -/
def togglePause (now : Int) (s : StatsState) : StatsState :=
  let wasOpen := s.isOpen
  let s1 := { s with isOpen := true }
  if s1.isPaused then
    let s2 :=
      if jsTruthy s1.pauseStart then
        let pauseDuration := now - s1.pauseStart.getD 0
        { s1 with startTime := s1.startTime + pauseDuration,
                  trackerTime := s1.trackerTime + pauseDuration }
      else s1
    { s2 with pauseStart := none, isPaused := false }
  else
    if wasOpen then
      { s1 with pauseStart := some now, isPaused := true }
    else
      s1

/-- The reset-on-new-document effect (reader-view.tsx lines 369-377). -/
def resetSession (currentPage now : Int) (s : StatsState) : StatsState :=
  { s with startTime := now, history := [], trackerPage := currentPage, trackerTime := now,
           isPaused := false, pauseStart := none }

/-- Opening the tracking panel through the exposed setIsOpen setter
(reader-view.tsx lines 330 and 477). -/
def openPanel (s : StatsState) : StatsState :=
  { s with isOpen := true }

/-- getSessionDuration (reader-view.tsx lines 425-430): frozen at the
pause start while paused (and the pause ref truthy), live otherwise. -/
def getSessionDuration (now : Int) (s : StatsState) : Int :=
  if s.isPaused && jsTruthy s.pauseStart then
    s.pauseStart.getD 0 - s.startTime
  else
    now - s.startTime

/-- getCurrentPageDuration (reader-view.tsx lines 432-437). -/
def getCurrentPageDuration (now : Int) (s : StatsState) : Int :=
  if s.isPaused && jsTruthy s.pauseStart then
    s.pauseStart.getD 0 - s.trackerTime
  else
    now - s.trackerTime

/-- The initial state of the hook (reader-view.tsx lines 330-341): panel
closed, empty history, running, tracker on page 1 at the current time. -/
def initialState (now : Int) : StatsState :=
  { isOpen := false, startTime := now, history := [], isPaused := false,
    pauseStart := none, trackerPage := 1, trackerTime := now }

/-- totalPagesRead (reader-view.tsx line 471): the number of distinct
pages occurring in the history. -/
def totalPagesRead (history : List PageTime) : Nat :=
  (history.map PageTime.page).dedup.length

/-- totalRecordedTime (reader-view.tsx line 472). -/
def totalRecordedTime (history : List PageTime) : Int :=
  history.foldl (fun acc curr => acc + curr.duration) 0

/-- The timeout constant of the idle watchdog (reader-view.tsx line 444). -/
def IDLE_TIMEOUT : Int := 120000

/-- The expiry action of the idle watchdog (reader-view.tsx lines 449-453):
it invokes togglePause. -/
def idleExpiry (now : Int) (s : StatsState) : StatsState :=
  togglePause now s

/-- Whether the watchdog timer fires: it is armed only while running,
and expires once no activity has reset it for IDLE_TIMEOUT milliseconds
(reader-view.tsx lines 440-468). -/
def watchdogFires (lastActivity now : Int) (s : StatsState) : Bool :=
  !s.isPaused && decide (IDLE_TIMEOUT ≤ now - lastActivity)

/-- Math.round for the nonnegative quantities involved here: floor of
the argument plus one half. -/
def jsRound (q : ℚ) : Int :=
  Int.floor (q + 1 / 2)

/-- pagesPerHour (reading-tracker.tsx lines 78-83): zero when no time
has elapsed or no page has been read; otherwise the page count divided
by the elapsed hours, where the elapsed time is stabilised to at least
60 seconds, rounded to the nearest integer. -/
def pagesPerHour (elapsed : Int) (pagesRead : Nat) : Int :=
  if elapsed = 0 ∨ pagesRead = 0 then 0
  else
    let stableDuration : ℚ := max (elapsed : ℚ) (60 * 1000)
    let hours : ℚ := stableDuration / (1000 * 60 * 60)
    jsRound ((pagesRead : ℚ) / hours)

/-- The velocity formula exactly as the specification words it:
pagesRead divided by the 60-second-floored elapsed time, times one hour,
with no rounding and no zero guard. -/
def pagesPerHourSpec (elapsed : Int) (pagesRead : Nat) : ℚ :=
  (pagesRead : ℚ) / max (elapsed : ℚ) 60000 * 3600000

/-- Events that mutate the tracker state. -/
inductive Ev where
  | page (newPage now : Int)
  | toggle (now : Int)
  | reset (currentPage now : Int)
deriving DecidableEq

/-- One event step. -/
def step (e : Ev) (s : StatsState) : StatsState :=
  match e with
  | .page newPage now => pageChange newPage now s
  | .toggle now => togglePause now s
  | .reset currentPage now => resetSession currentPage now s

/-- Running a sequence of events from a state. -/
def run (s : StatsState) (evs : List Ev) : StatsState :=
  evs.foldl (fun t e => step e t) s

theorem commit_nil (pg d : Int) : commit pg d [] = [{ page := pg, duration := d }] := rfl

theorem commit_cons (pg d : Int) (r : PageTime) (rest : List PageTime) :
    commit pg d (r :: rest) =
      if r.page = pg then { r with duration := r.duration + d } :: rest
      else r :: commit pg d rest := by
  by_cases h : r.page = pg
  · simp only [commit, List.findIdx?_cons, h, beq_self_eq_true, if_true, if_pos h,
      List.getElem?_cons_zero, List.set_cons_zero]
  · have hb : (r.page == pg) = false := by simpa using h
    rw [if_neg h]
    unfold commit
    rw [List.findIdx?_cons, hb, if_neg (by simp), List.findIdx?_succ]
    cases hfind : rest.findIdx? (fun p => p.page == pg) with
    | none => simp
    | some i =>
      simp only [Option.map_some']
      cases hget : rest[i]? with
      | none => simp [hget]
      | some item => simp [hget]

theorem commit_append_of_not_mem (pg d : Int) (prev : List PageTime)
    (h : pg ∉ prev.map PageTime.page) :
    commit pg d prev = prev ++ [{ page := pg, duration := d }] := by
  induction prev with
  | nil => rfl
  | cons r rest ih =>
    simp only [List.map_cons, List.mem_cons, not_or] at h
    rw [commit_cons, if_neg (fun hr => h.1 hr.symm), ih h.2, List.cons_append]

theorem commit_set_of_first (pg d : Int) (pre post : List PageTime) (item : PageTime)
    (hpg : item.page = pg) (hpre : pg ∉ pre.map PageTime.page) :
    commit pg d (pre ++ item :: post) =
      pre ++ { item with duration := item.duration + d } :: post := by
  induction pre with
  | nil => simp only [List.nil_append]; rw [commit_cons, if_pos hpg]
  | cons r rest ih =>
    simp only [List.map_cons, List.mem_cons, not_or] at hpre
    rw [List.cons_append, commit_cons, if_neg (fun hr => hpre.1 hr.symm), ih hpre.2,
      List.cons_append]

theorem commit_map_page (pg d : Int) (prev : List PageTime) :
    (commit pg d prev).map PageTime.page =
      if pg ∈ prev.map PageTime.page then prev.map PageTime.page
      else prev.map PageTime.page ++ [pg] := by
  induction prev with
  | nil => simp [commit_nil]
  | cons r rest ih =>
    rw [commit_cons]
    by_cases h : r.page = pg
    · rw [if_pos h]
      simp [h]
    · rw [if_neg h, List.map_cons, List.map_cons, ih]
      by_cases hmem : pg ∈ rest.map PageTime.page
      · rw [if_pos hmem, if_pos (by simp [hmem])]
      · rw [if_neg hmem, if_neg (by simp [hmem, Ne.symm h]), List.cons_append]

theorem commit_durations (pg d : Int) (prev : List PageTime)
    (hd : 2000 < d) (h : ∀ r ∈ prev, 2000 < r.duration) :
    ∀ r ∈ commit pg d prev, 2000 < r.duration := by
  induction prev with
  | nil =>
    intro r hr
    rw [commit_nil, List.mem_singleton] at hr
    subst hr
    exact hd
  | cons q rest ih =>
    rw [commit_cons]
    by_cases hq : q.page = pg
    · rw [if_pos hq]
      intro r hr
      rcases List.mem_cons.mp hr with h1 | h2
      · subst h1
        have := h q (List.mem_cons_self _ _)
        simp only
        omega
      · exact h r (List.mem_cons_of_mem _ h2)
    · rw [if_neg hq]
      intro r hr
      rcases List.mem_cons.mp hr with h1 | h2
      · subst h1
        exact h r (List.mem_cons_self _ _)
      · exact ih (fun x hx => h x (List.mem_cons_of_mem _ hx)) r h2

theorem commit_nodup (pg d : Int) (prev : List PageTime)
    (h : (prev.map PageTime.page).Nodup) :
    ((commit pg d prev).map PageTime.page).Nodup := by
  rw [commit_map_page]
  by_cases hmem : pg ∈ prev.map PageTime.page
  · rw [if_pos hmem]
    exact h
  · rw [if_neg hmem]
    simp [List.nodup_append, h, hmem]

theorem togglePause_history (now : Int) (s : StatsState) :
    (togglePause now s).history = s.history := by
  simp only [togglePause]
  split
  · split <;> rfl
  · split <;> rfl

/-- The history invariant maintained by every mutation: distinct pages
and every committed duration strictly above the 2000 ms threshold. -/
def HistInv (history : List PageTime) : Prop :=
  (history.map PageTime.page).Nodup ∧ ∀ r ∈ history, 2000 < r.duration

theorem histInv_pageChange (newPage now : Int) (s : StatsState)
    (h : HistInv s.history) : HistInv (pageChange newPage now s).history := by
  simp only [pageChange]
  split
  · exact h
  · split
    · by_cases hd : now - s.trackerTime > 2000
      · simp only [if_pos hd]
        exact ⟨commit_nodup _ _ _ h.1, commit_durations _ _ _ hd h.2⟩
      · simp only [if_neg hd]
        exact h
    · exact h

theorem histInv_step (e : Ev) (s : StatsState)
    (h : HistInv s.history) : HistInv (step e s).history := by
  cases e with
  | page newPage now => exact histInv_pageChange newPage now s h
  | toggle now =>
    rw [step, togglePause_history]
    exact h
  | reset currentPage now =>
    exact ⟨List.nodup_nil, by intro r hr; cases hr⟩

theorem histInv_run (evs : List Ev) (s : StatsState)
    (h : HistInv s.history) : HistInv (run s evs).history := by
  induction evs generalizing s with
  | nil => exact h
  | cons e rest ih => exact ih (step e s) (histInv_step e s h)

/-- Claim C1: continuity across pause.  For a state paused at t1 (with a
positive pause timestamp, as every Date.now() read is) and resumed at
t2 > t1 via togglePause, the session duration read right after the
resume equals the frozen session duration read while paused, and the
resume shifts both startTime and the tracker reference time by exactly
the gap t2 - t1. -/
theorem elapsed_continuity (s : StatsState) (t1 t2 : Int)
    (hp : s.isPaused = true) (hps : s.pauseStart = some t1)
    (hpos : 0 < t1) (_hlt : t1 < t2) :
    getSessionDuration t2 (togglePause t2 s) = getSessionDuration t1 s
    ∧ (togglePause t2 s).startTime = s.startTime + (t2 - t1)
    ∧ (togglePause t2 s).trackerTime = s.trackerTime + (t2 - t1) := by
  have ht : jsTruthy (some t1) = true := by
    simp only [jsTruthy, bne_iff_ne, ne_eq, decide_eq_true_eq]
    omega
  have hres : togglePause t2 s =
      { s with isOpen := true, startTime := s.startTime + (t2 - t1),
               trackerTime := s.trackerTime + (t2 - t1),
               pauseStart := none, isPaused := false } := by
    simp only [togglePause, hp, hps, ht, if_true, Option.getD_some]
  refine ⟨?_, ?_, ?_⟩
  · rw [hres]
    simp only [getSessionDuration, hp, hps, ht, Bool.and_self, if_true, Option.getD_some,
      Bool.false_and, Bool.and_false, Bool.false_eq_true, if_false]
    omega
  · rw [hres]
  · rw [hres]

/-- Witness for C1 at a concrete run: pause at 100, resume at 250. -/
theorem elapsed_continuity_witness :
    (togglePause 100 (openPanel (initialState 0))).isPaused = true
    ∧ (togglePause 100 (openPanel (initialState 0))).pauseStart = some 100
    ∧ (0 : Int) < 100 ∧ (100 : Int) < 250
    ∧ getSessionDuration 250 (togglePause 250 (togglePause 100 (openPanel (initialState 0))))
        = getSessionDuration 100 (togglePause 100 (openPanel (initialState 0))) :=
  ⟨by decide, by decide, by decide, by decide,
   (elapsed_continuity (togglePause 100 (openPanel (initialState 0))) 100 250
     (by decide) (by decide) (by decide) (by decide)).1⟩

/-- Claim C3: the three cases of the togglePause contract: hidden panel
while running opens the panel and keeps running; visible panel while
running pauses; any paused state resumes. -/
theorem togglePause_cases (s : StatsState) (now : Int) :
    (s.isOpen = false → s.isPaused = false →
       (togglePause now s).isOpen = true ∧ (togglePause now s).isPaused = false)
    ∧ (s.isOpen = true → s.isPaused = false → (togglePause now s).isPaused = true)
    ∧ (s.isPaused = true → (togglePause now s).isPaused = false) := by
  refine ⟨?_, ?_, ?_⟩
  · intro ho hp
    simp [togglePause, ho, hp]
  · intro ho hp
    simp [togglePause, ho, hp]
  · intro hp
    simp only [togglePause, hp, if_true]

/-- Witness for C3: all three cases at concrete states. -/
theorem togglePause_cases_witness :
    ((togglePause 5 (initialState 0)).isOpen = true
       ∧ (togglePause 5 (initialState 0)).isPaused = false)
    ∧ (togglePause 7 (openPanel (initialState 0))).isPaused = true
    ∧ (togglePause 9 (togglePause 7 (openPanel (initialState 0)))).isPaused = false :=
  ⟨(togglePause_cases (initialState 0) 5).1 rfl rfl,
   (togglePause_cases (openPanel (initialState 0)) 7).2.1 rfl rfl,
   (togglePause_cases (togglePause 7 (openPanel (initialState 0))) 9).2.2 (by decide)⟩

/-- Claim C4: threshold boundary.  On a running page change to a
different page, the history gains the measured dwell exactly when it is
strictly greater than 2000 ms, and the tracker is reset to the new page
at the current time in either case. -/
theorem threshold_boundary (s : StatsState) (newPage now : Int)
    (hrun : s.isPaused = false) (hne : s.trackerPage ≠ newPage) :
    ((pageChange newPage now s).history =
       if 2000 < now - s.trackerTime then
         commit s.trackerPage (now - s.trackerTime) s.history
       else s.history)
    ∧ (pageChange newPage now s).trackerPage = newPage
    ∧ (pageChange newPage now s).trackerTime = now := by
  simp [pageChange, hrun, hne]

/-- Witness for C4 at the committed side of the boundary (dwell 2001). -/
theorem threshold_boundary_witness :
    (initialState 0).isPaused = false
    ∧ (initialState 0).trackerPage ≠ (2 : Int)
    ∧ ((pageChange 2 2001 (initialState 0)).history =
         if 2000 < (2001 : Int) - (initialState 0).trackerTime then
           commit (initialState 0).trackerPage ((2001 : Int) - (initialState 0).trackerTime)
             (initialState 0).history
         else (initialState 0).history) :=
  ⟨rfl, by decide, (threshold_boundary (initialState 0) 2 2001 rfl (by decide)).1⟩

/-- Claim C10: every call to togglePause leaves the panel visible,
whatever the prior state. -/
theorem togglePause_opens_panel (now : Int) (s : StatsState) :
    (togglePause now s).isOpen = true := by
  simp only [togglePause]
  split
  · split <;> rfl
  · split <;> rfl

/-- Counterexample to claim C2: in the fresh state the clock is running,
the panel is hidden, and the timer of the idle watchdog has expired with no
activity for 120000 ms, yet the expiry action (which invokes
togglePause) leaves the clock running: it only opens the panel. -/
theorem idle_autopause_cex :
    watchdogFires 0 120000 (initialState 0) = true
    ∧ (initialState 0).isPaused = false
    ∧ (initialState 0).isOpen = false
    ∧ (idleExpiry 120000 (initialState 0)).isPaused = false := by decide

/-- Claim C2 as amended: when the idle timer expires while running, the
expiry invokes togglePause, so the clock transitions to Paused exactly
when the panel was already visible; with the panel hidden the call
opens the panel and the clock stays Running. -/
theorem idle_autopause_amended (s : StatsState) (lastActivity now : Int)
    (hfire : watchdogFires lastActivity now s = true) :
    (s.isOpen = true → (idleExpiry now s).isPaused = true)
    ∧ (s.isOpen = false →
         (idleExpiry now s).isPaused = false ∧ (idleExpiry now s).isOpen = true) := by
  have hrun : s.isPaused = false := by
    simp only [watchdogFires, Bool.and_eq_true, Bool.not_eq_true'] at hfire
    exact hfire.1
  constructor
  · intro hopen
    simp [idleExpiry, togglePause, hrun, hopen]
  · intro hcl
    simp [idleExpiry, togglePause, hrun, hcl]

/-- Witness for the amended C2: with the panel open, expiry pauses. -/
theorem idle_autopause_amended_witness :
    watchdogFires 0 120000 (openPanel (initialState 0)) = true
    ∧ (openPanel (initialState 0)).isOpen = true
    ∧ (idleExpiry 120000 (openPanel (initialState 0))).isPaused = true :=
  ⟨by decide, by decide,
   (idle_autopause_amended (openPanel (initialState 0)) 0 120000 (by decide)).1 rfl⟩

/-- Claim C5: history merge correctness.  A commit for a page not yet in
the history appends at the end; a commit for a page already present adds
the duration into the record at its existing position, leaving every
other record and the order untouched; and the concrete scenario page 1
for 3000 ms, page 2 for 2500 ms, then page 1 again for 2500 ms yields
exactly one record per page, ordered by first visit, with durations
summed. -/
theorem history_merge :
    (∀ (prev : List PageTime) (pg d : Int), pg ∉ prev.map PageTime.page →
       commit pg d prev = prev ++ [{ page := pg, duration := d }])
    ∧ (∀ (pre post : List PageTime) (item : PageTime) (pg d : Int),
         item.page = pg → pg ∉ pre.map PageTime.page →
         commit pg d (pre ++ item :: post) =
           pre ++ { item with duration := item.duration + d } :: post)
    ∧ (run (initialState 0) [Ev.page 2 3000, Ev.page 1 5500, Ev.page 3 8000]).history
        = [{ page := 1, duration := 5500 }, { page := 2, duration := 2500 }] :=
  ⟨fun prev pg d h => commit_append_of_not_mem pg d prev h,
   fun pre post item pg d hpg hpre => commit_set_of_first pg d pre post item hpg hpre,
   by decide⟩

/-- Witness for C5: an append commit and an in-place merge commit at
concrete histories. -/
theorem history_merge_witness :
    ((1 : Int) ∉ ([{ page := 2, duration := 7000 }] : List PageTime).map PageTime.page)
    ∧ commit 1 3000 [{ page := 2, duration := 7000 }]
        = [{ page := 2, duration := 7000 }, { page := 1, duration := 3000 }]
    ∧ commit 1 2500 [{ page := 1, duration := 3000 }, { page := 2, duration := 7000 }]
        = [{ page := 1, duration := 5500 }, { page := 2, duration := 7000 }] :=
  ⟨by decide,
   history_merge.1 [{ page := 2, duration := 7000 }] 1 3000 (by decide),
   history_merge.2.1 [] [{ page := 2, duration := 7000 }] { page := 1, duration := 3000 }
     1 2500 rfl (by decide)⟩

/-- Counterexample to claim C6: the page-change effect performs no
validation, so a page-change to the non-positive page 0 while running is
not ignored: the tracker moves to page 0 and the dwell of the previous page
is committed to the history. -/
theorem invalid_page_cex :
    (pageChange 0 5000 (initialState 0)).trackerPage ≠ (initialState 0).trackerPage
    ∧ (pageChange 0 5000 (initialState 0)).history ≠ (initialState 0).history := by decide

/-- Claim C6 as amended: the effect applies no domain check, so a
non-positive page number different from the tracked page is processed
like any other page change: the dwell is committed exactly when above
the threshold and the tracker is reset to the invalid page; the
operation is total, so no exception arises. -/
theorem invalid_page_amended (s : StatsState) (newPage now : Int)
    (hrun : s.isPaused = false) (_hnp : newPage ≤ 0) (hne : s.trackerPage ≠ newPage) :
    (pageChange newPage now s).trackerPage = newPage
    ∧ (pageChange newPage now s).trackerTime = now
    ∧ (pageChange newPage now s).history =
        (if 2000 < now - s.trackerTime then
           commit s.trackerPage (now - s.trackerTime) s.history
         else s.history) := by
  simp [pageChange, hrun, hne]

/-- Witness for the amended C6: page 0 at time 5000 from the fresh
state. -/
theorem invalid_page_amended_witness :
    (initialState 0).isPaused = false
    ∧ (0 : Int) ≤ 0
    ∧ (initialState 0).trackerPage ≠ (0 : Int)
    ∧ (pageChange 0 5000 (initialState 0)).trackerPage = 0 :=
  ⟨rfl, by decide, by decide,
   (invalid_page_amended (initialState 0) 0 5000 rfl (by decide) (by decide)).1⟩

/-- Claim C7: the end-to-end scenario.  From a fresh session at t=0 on
page 1 with the panel open: the move to page 2 at t=3000 commits
3000 ms for page 1; pausing at t=3000 and resuming at t=10000 shifts
the tracker reference to 10000; the move to page 3 at t=11000 measures
1000 ms, below threshold, committing nothing and resetting the tracker
to page 3 at 11000; the final history is the single page-1 record and
the session duration at t=11000 is 4000 ms. -/
theorem end_to_end_scenario :
    (run (openPanel (initialState 0)) [Ev.page 2 3000]).history
        = [{ page := 1, duration := 3000 }]
    ∧ (run (openPanel (initialState 0))
        [Ev.page 2 3000, Ev.toggle 3000, Ev.toggle 10000]).trackerTime = 10000
    ∧ (11000 : Int) - (run (openPanel (initialState 0))
        [Ev.page 2 3000, Ev.toggle 3000, Ev.toggle 10000]).trackerTime = 1000
    ∧ (run (openPanel (initialState 0))
        [Ev.page 2 3000, Ev.toggle 3000, Ev.toggle 10000, Ev.page 3 11000]).history
        = [{ page := 1, duration := 3000 }]
    ∧ (run (openPanel (initialState 0))
        [Ev.page 2 3000, Ev.toggle 3000, Ev.toggle 10000, Ev.page 3 11000]).trackerPage = 3
    ∧ (run (openPanel (initialState 0))
        [Ev.page 2 3000, Ev.toggle 3000, Ev.toggle 10000, Ev.page 3 11000]).trackerTime = 11000
    ∧ getSessionDuration 11000 (run (openPanel (initialState 0))
        [Ev.page 2 3000, Ev.toggle 3000, Ev.toggle 10000, Ev.page 3 11000]) = 4000 := by
  decide

/-- Claim C9: after any sequence of events from a fresh session, the
pages in the history are pairwise distinct, every recorded duration is
strictly above 2000 ms, and consequently the distinct-page count that
defines pagesRead equals the length of the history. -/
theorem history_invariant (now : Int) (evs : List Ev) :
    ((run (initialState now) evs).history.map PageTime.page).Nodup
    ∧ (∀ r ∈ (run (initialState now) evs).history, 2000 < r.duration)
    ∧ totalPagesRead (run (initialState now) evs).history
        = (run (initialState now) evs).history.length := by
  have h : HistInv (run (initialState now) evs).history :=
    histInv_run evs (initialState now)
      ⟨List.nodup_nil, by intro r hr; cases hr⟩
  refine ⟨h.1, h.2, ?_⟩
  unfold totalPagesRead
  rw [List.Nodup.dedup h.1, List.length_map]

/-- Witness for C9 at a concrete event sequence. -/
theorem history_invariant_witness :
    ((run (initialState 0) [Ev.page 2 3000, Ev.page 1 6000]).history.map
        PageTime.page).Nodup
    ∧ totalPagesRead (run (initialState 0) [Ev.page 2 3000, Ev.page 1 6000]).history
        = (run (initialState 0) [Ev.page 2 3000, Ev.page 1 6000]).history.length :=
  ⟨(history_invariant 0 [Ev.page 2 3000, Ev.page 1 6000]).1,
   (history_invariant 0 [Ev.page 2 3000, Ev.page 1 6000]).2.2⟩

/-- Counterexample to claim C8: at elapsed = 70000 ms with one page
read, the displayed velocity is the rounded 51, while the formula of the claim, namely pagesRead / max(elapsed, 60000) * 3600000 gives 360/7, so the
displayed value does not equal the formula. -/
theorem pagesPerHour_cex :
    (pagesPerHour 70000 1 : ℚ) ≠ pagesPerHourSpec 70000 1 := by
  have h1 : pagesPerHour 70000 1 = 51 := by
    simp only [pagesPerHour, jsRound]
    rw [if_neg (by norm_num)]
    rw [show (((70000 : Int) : ℚ)) = 70000 by norm_num,
      max_eq_left (by norm_num : (60 * 1000 : ℚ) ≤ 70000)]
    rw [Int.floor_eq_iff]
    norm_num
  have h2 : pagesPerHourSpec 70000 1 = 360 / 7 := by
    simp only [pagesPerHourSpec]
    rw [show (((70000 : Int) : ℚ)) = 70000 by norm_num,
      max_eq_left (by norm_num : (60000 : ℚ) ≤ 70000)]
    norm_num
  rw [h1, h2]
  norm_num

/-- Claim C8 as amended: the displayed velocity is 0 when no time has
elapsed or no page has been read, and otherwise equals the formula of the claim rounded to the nearest integer. -/
theorem pagesPerHour_amended (elapsed : Int) (pagesRead : Nat) :
    pagesPerHour elapsed pagesRead =
      if elapsed = 0 ∨ pagesRead = 0 then 0
      else jsRound (pagesPerHourSpec elapsed pagesRead) := by
  simp only [pagesPerHour, pagesPerHourSpec]
  by_cases h : elapsed = 0 ∨ pagesRead = 0
  · rw [if_pos h, if_pos h]
  · rw [if_neg h, if_neg h]
    congr 1
    rw [div_div_eq_mul_div, div_mul_eq_mul_div]
    norm_num

end ReadingStats
